import Mathlib

/-!
Shallow embedding of the todo_app service (src/main.py, src/database.py).

The sqlite `tasks` table is modelled as a list of rows together with the
AUTOINCREMENT counter `nextId`; each HTTP handler from src/main.py becomes a
pure function on this store.  `HTTPException` mirrors the FastAPI exception
raised by the handlers; the body returned by a handler is the value on the
`Except.ok` side.
-/

/-- Request body of POST /api/tasks (pydantic `TaskModel` in src/main.py).
Field defaults mirror the pydantic defaults: description and due_date
default to None, status defaults to "Pending". -/
structure TaskModel where
  title : String
  description : Option String := none
  due_date : Option String := none
  status : String := "Pending"
deriving Repr, DecidableEq

/-- One row of the sqlite `tasks` table, columns in the order declared by
`init_db` in src/main.py: id, title, description, status, due_date,
created_at. -/
structure Row where
  id : Nat
  title : String
  description : Option String
  status : String
  due_date : Option String
  created_at : String
deriving Repr, DecidableEq

/-- Response shape of the handlers (pydantic `TaskResponse` in src/main.py):
exactly the five fields id, title, description, due_date, status. -/
structure TaskResponse where
  id : Nat
  title : String
  description : Option String
  due_date : Option String
  status : String
deriving Repr, DecidableEq

/-- Body of PATCH /api/tasks/id (pydantic `TaskUpdate` in src/main.py). -/
structure TaskUpdate where
  status : String
deriving Repr, DecidableEq

/-- The FastAPI HTTPException raised by the handlers. -/
structure HTTPException where
  status_code : Nat
  detail : String
deriving Repr, DecidableEq

/-- The persistent state: rows of the `tasks` table plus the sqlite
AUTOINCREMENT counter (the id the next INSERT will receive). -/
structure Store where
  tasks : List Row
  nextId : Nat
deriving Repr, DecidableEq

/-- State after `init_db` on a fresh database: empty table, first
AUTOINCREMENT id is 1. -/
def initStore : Store := ⟨[], 1⟩

/-- The dict each handler builds from a fetched row: the five keys id,
title, description, due_date, status (created_at is not copied). -/
def rowToResponse (r : Row) : TaskResponse :=
  ⟨r.id, r.title, r.description, r.due_date, r.status⟩

/-- SELECT * FROM tasks WHERE id = ? followed by fetchone(): the first row
of the table whose id column equals the argument, if any. -/
def fetch_one (st : Store) (task_id : Nat) : Option Row :=
  st.tasks.find? (fun r => r.id == task_id)

/-- Handler create_task (POST /api/tasks): INSERT the payload with the next
AUTOINCREMENT id (created_at filled by CURRENT_TIMESTAMP, modelled by the
`now` argument), then re-fetch the created row by lastrowid and shape the
response.  The fetch coming back empty would make the Python handler fault,
hence the Option in the response position. -/
def create_task (st : Store) (task : TaskModel) (now : String) :
    Store × Option TaskResponse :=
  let row : Row :=
    ⟨st.nextId, task.title, task.description, task.status, task.due_date, now⟩
  let st' : Store := ⟨st.tasks ++ [row], st.nextId + 1⟩
  (st', (fetch_one st' st.nextId).map rowToResponse)

/-- Insert a row into a list that is kept sorted by descending id. -/
def insertDesc (r : Row) : List Row → List Row
  | [] => [r]
  | x :: xs => if x.id ≤ r.id then r :: x :: xs else x :: insertDesc r xs

/-- Sort rows by descending id (the ORDER BY id DESC of get_tasks). -/
def sortDesc : List Row → List Row
  | [] => []
  | x :: xs => insertDesc x (sortDesc xs)

/-- Handler get_tasks (GET /api/tasks): SELECT * FROM tasks ORDER BY id
DESC, every row shaped as a response. -/
def get_tasks (st : Store) : List TaskResponse :=
  (sortDesc st.tasks).map rowToResponse

/-- Handler get_task (GET /api/tasks/id): 404 "Task not found" when the
fetch is empty, otherwise the row shaped as a response. -/
def get_task (st : Store) (task_id : Nat) : Except HTTPException TaskResponse :=
  match fetch_one st task_id with
  | none => .error ⟨404, "Task not found"⟩
  | some row => .ok (rowToResponse row)

/-- Handler update_task_status (PATCH /api/tasks/id): existence check
first (404 "Task not found" when absent), then UPDATE tasks SET status = ?
WHERE id = ?, then re-fetch the row and shape the response. -/
def update_task_status (st : Store) (task_id : Nat) (task_update : TaskUpdate) :
    Store × Except HTTPException (Option TaskResponse) :=
  match fetch_one st task_id with
  | none => (st, .error ⟨404, "Task not found"⟩)
  | some _ =>
    let st' : Store :=
      ⟨st.tasks.map (fun r =>
          if r.id == task_id then { r with status := task_update.status } else r),
       st.nextId⟩
    (st', .ok ((fetch_one st' task_id).map rowToResponse))

/-- Handler delete_task (DELETE /api/tasks/id): existence check first
(404 "Task not found" when absent), then DELETE FROM tasks WHERE id = ?
and the confirmation message body. -/
def delete_task (st : Store) (task_id : Nat) :
    Store × Except HTTPException String :=
  match fetch_one st task_id with
  | none => (st, .error ⟨404, "Task not found"⟩)
  | some _ =>
    (⟨st.tasks.filter (fun r => !(r.id == task_id)), st.nextId⟩,
     .ok "Task deleted successfully")

/-- Store well-formedness maintained by sqlite: every stored id is below
the AUTOINCREMENT counter, and ids are pairwise distinct (PRIMARY KEY). -/
def Store.WF (st : Store) : Prop :=
  (∀ r ∈ st.tasks, r.id < st.nextId) ∧ (st.tasks.map Row.id).Nodup

/-- The store reached after a sequence of create calls. -/
def runCreatesStore (st : Store) : List (TaskModel × String) → Store
  | [] => st
  | (t, now) :: rest => runCreatesStore (create_task st t now).1 rest

/-- The id carried by a create response (0 for the impossible empty case). -/
def respId : Option TaskResponse → Nat
  | some r => r.id
  | none => 0

/-- The ids returned by a sequence of create calls, in call order. -/
def runCreateIds (st : Store) : List (TaskModel × String) → List Nat
  | [] => []
  | (t, now) :: rest =>
    respId (create_task st t now).2 :: runCreateIds (create_task st t now).1 rest

example :
    (create_task initStore ⟨"A", none, none, "Pending"⟩ "t0").2 =
      some ⟨1, "A", none, none, "Pending"⟩ := by decide

example :
    get_task (create_task initStore ⟨"A", none, none, "Pending"⟩ "t0").1 2 =
      .error ⟨404, "Task not found"⟩ := rfl

/-! ### Helper lemmas -/

theorem find?_append_last {α} (p : α → Bool) (l : List α) (a : α)
    (hl : ∀ x ∈ l, p x = false) (ha : p a = true) :
    (l ++ [a]).find? p = some a := by
  induction l with
  | nil => simp [List.find?, ha]
  | cons x xs ih =>
    have hx := hl x (by simp)
    rw [List.cons_append, List.find?_cons_of_neg _ (by simp [hx])]
    exact ih (fun y hy => hl y (by simp [hy]))

theorem create_task_store (st : Store) (task : TaskModel) (now : String) :
    (create_task st task now).1 =
      ⟨st.tasks ++
        [⟨st.nextId, task.title, task.description, task.status, task.due_date, now⟩],
       st.nextId + 1⟩ := rfl

/-- Under the id bound, the create handler re-fetches exactly the row it
just inserted: its response carries the fresh id and the payload fields. -/
theorem create_task_resp (st : Store) (h : ∀ r ∈ st.tasks, r.id < st.nextId)
    (task : TaskModel) (now : String) :
    (create_task st task now).2 =
      some ⟨st.nextId, task.title, task.description, task.due_date, task.status⟩ := by
  have hfind : fetch_one (create_task st task now).1 st.nextId =
      some ⟨st.nextId, task.title, task.description, task.status, task.due_date, now⟩ := by
    unfold fetch_one
    rw [create_task_store]
    exact find?_append_last _ _ _
      (fun r hr => by simpa using Nat.ne_of_lt (h r hr)) (by simp)
  show (fetch_one (create_task st task now).1 st.nextId).map rowToResponse = _
  rw [hfind]
  rfl

theorem create_task_WF (st : Store) (h : st.WF) (task : TaskModel) (now : String) :
    (create_task st task now).1.WF := by
  obtain ⟨hlt, hnd⟩ := h
  constructor
  · intro r hr
    rw [create_task_store] at hr
    simp only [List.mem_append, List.mem_singleton] at hr
    rcases hr with hr | hr
    · exact Nat.lt_succ_of_lt (hlt r hr)
    · rw [hr]; exact Nat.lt_succ_self _
  · rw [create_task_store]
    simp only [List.map_append, List.map_cons, List.map_nil]
    rw [List.nodup_append]
    refine ⟨hnd, List.nodup_singleton _, ?_⟩
    intro a ha hb
    simp only [List.mem_singleton] at hb
    simp only [List.mem_map] at ha
    obtain ⟨r, hr, hid⟩ := ha
    exact Nat.ne_of_lt (hid ▸ hlt r hr) hb

/-! ### Claims -/

/-- C1: creating a task whose payload carries only a title (description,
status and due_date left to their pydantic defaults) returns a record with
status "Pending" and absent description and due_date. -/
theorem create_only_title_defaults (st : Store) (h : st.WF)
    (title now : String) :
    (create_task st { title := title } now).2 =
      some ⟨st.nextId, title, none, none, "Pending"⟩ :=
  create_task_resp st h.1 { title := title } now

theorem create_only_title_defaults_witness :
    initStore.WF ∧
      (create_task initStore { title := "Test Task" } "t0").2 =
        some ⟨1, "Test Task", none, none, "Pending"⟩ :=
  ⟨⟨by simp [initStore], by simp [initStore]⟩,
   create_only_title_defaults initStore
     ⟨by simp [initStore], by simp [initStore]⟩ "Test Task" "t0"⟩

/-- C2: get_task returns 200 with the stored task when a row with the id
exists, and raises 404 with detail "Task not found" exactly when no row
with the id exists. -/
theorem get_task_found_or_404 (st : Store) (task_id : Nat) :
    (∀ r, fetch_one st task_id = some r →
        get_task st task_id = .ok (rowToResponse r)) ∧
      (get_task st task_id = .error ⟨404, "Task not found"⟩ ↔
        fetch_one st task_id = none) := by
  constructor
  · intro r hr
    unfold get_task
    rw [hr]
  · unfold get_task
    cases hfo : fetch_one st task_id with
    | none => simp
    | some r => simp

theorem get_task_found_or_404_witness :
    get_task ⟨[⟨1, "A", none, "Pending", none, "t0"⟩], 2⟩ 1 =
        .ok ⟨1, "A", none, none, "Pending"⟩ ∧
      get_task ⟨[⟨1, "A", none, "Pending", none, "t0"⟩], 2⟩ 9999 =
        .error ⟨404, "Task not found"⟩ :=
  ⟨(get_task_found_or_404 ⟨[⟨1, "A", none, "Pending", none, "t0"⟩], 2⟩ 1).1
      ⟨1, "A", none, "Pending", none, "t0"⟩ rfl,
   (get_task_found_or_404 ⟨[⟨1, "A", none, "Pending", none, "t0"⟩], 2⟩ 9999).2.mpr
      rfl⟩

theorem update_task_status_none (st : Store) (task_id : Nat) (u : TaskUpdate)
    (h : fetch_one st task_id = none) :
    update_task_status st task_id u = (st, .error ⟨404, "Task not found"⟩) := by
  unfold update_task_status
  rw [h]

theorem update_task_status_found (st : Store) (task_id : Nat) (u : TaskUpdate)
    (r : Row) (h : fetch_one st task_id = some r) :
    update_task_status st task_id u =
      (⟨st.tasks.map (fun x =>
          if x.id == task_id then { x with status := u.status } else x),
        st.nextId⟩,
       .ok ((fetch_one
          ⟨st.tasks.map (fun x =>
              if x.id == task_id then { x with status := u.status } else x),
            st.nextId⟩ task_id).map rowToResponse)) := by
  unfold update_task_status
  rw [h]

theorem delete_task_none (st : Store) (task_id : Nat)
    (h : fetch_one st task_id = none) :
    delete_task st task_id = (st, .error ⟨404, "Task not found"⟩) := by
  unfold delete_task
  rw [h]

theorem delete_task_found (st : Store) (task_id : Nat) (r : Row)
    (h : fetch_one st task_id = some r) :
    delete_task st task_id =
      (⟨st.tasks.filter (fun x => !(x.id == task_id)), st.nextId⟩,
       .ok "Task deleted successfully") := by
  unfold delete_task
  rw [h]

/-- The UPDATE statement only rewrites the status column, so the re-fetch
finds the same first matching row with its status replaced. -/
theorem find?_update_status (l : List Row) (task_id : Nat) (s : String) (r : Row)
    (h : l.find? (fun x => x.id == task_id) = some r) :
    (l.map (fun x => if x.id == task_id then { x with status := s } else x)).find?
        (fun x => x.id == task_id) = some { r with status := s } := by
  induction l with
  | nil => simp [List.find?] at h
  | cons x xs ih =>
    by_cases hx : (x.id == task_id) = true
    · rw [@List.find?_cons_of_pos Row (fun y => y.id == task_id) x xs hx] at h
      injection h with h
      subst h
      rw [List.map_cons, if_pos hx]
      exact List.find?_cons_of_pos _ (by simpa using hx)
    · rw [@List.find?_cons_of_neg Row (fun y => y.id == task_id) x xs hx] at h
      rw [List.map_cons, if_neg hx]
      rw [@List.find?_cons_of_neg Row (fun y => y.id == task_id) x
        (xs.map (fun y => if y.id == task_id then { y with status := s } else y)) hx]
      exact ih h

/-- All columns other than status agree between two rows. -/
def OnlyStatusDiffers (old new : Row) : Prop :=
  new.id = old.id ∧ new.title = old.title ∧ new.description = old.description ∧
    new.due_date = old.due_date ∧ new.created_at = old.created_at

/-- C3: the partial update checks existence first: a missing id leaves the
store untouched and raises 404 "Task not found"; an existing id yields an
ok response whose status equals the requested status, for that id. -/
theorem update_checks_existence_first (st : Store) (task_id : Nat)
    (u : TaskUpdate) :
    (fetch_one st task_id = none →
        update_task_status st task_id u = (st, .error ⟨404, "Task not found"⟩)) ∧
      ∀ r, fetch_one st task_id = some r →
        (update_task_status st task_id u).2 =
          .ok (some ⟨task_id, r.title, r.description, r.due_date, u.status⟩) := by
  refine ⟨update_task_status_none st task_id u, ?_⟩
  intro r hr
  have hid : r.id = task_id := by
    have := List.find?_some hr
    simpa using this
  rw [update_task_status_found st task_id u r hr]
  have hfind := find?_update_status st.tasks task_id u.status r hr
  show ((fetch_one _ task_id).map rowToResponse |> Except.ok) = _
  unfold fetch_one
  simp only
  rw [hfind]
  simp [rowToResponse, hid]

theorem update_checks_existence_first_witness :
    (update_task_status ⟨[⟨1, "A", none, "Pending", none, "t0"⟩], 2⟩ 1
        ⟨"Completed"⟩).2 =
      .ok (some ⟨1, "A", none, none, "Completed"⟩) :=
  (update_checks_existence_first ⟨[⟨1, "A", none, "Pending", none, "t0"⟩], 2⟩ 1
      ⟨"Completed"⟩).2 ⟨1, "A", none, "Pending", none, "t0"⟩ rfl

/-- C4: on an existing id the partial update rewrites only the status
column: every row keeps its id, title, description, due_date (and
created_at), rows with a different id are completely unchanged, and the
AUTOINCREMENT counter is unchanged. -/
theorem update_frames_other_fields (st : Store) (task_id : Nat)
    (u : TaskUpdate) (r : Row) (h : fetch_one st task_id = some r) :
    (update_task_status st task_id u).1.nextId = st.nextId ∧
      List.Forall₂
        (fun old new => OnlyStatusDiffers old new ∧ (old.id ≠ task_id → new = old))
        st.tasks (update_task_status st task_id u).1.tasks := by
  rw [update_task_status_found st task_id u r h]
  refine ⟨rfl, ?_⟩
  show List.Forall₂ _ st.tasks (st.tasks.map _)
  rw [List.forall₂_map_right_iff, List.forall₂_same]
  intro x _
  by_cases hx : (x.id == task_id) = true
  · rw [if_pos hx]
    exact ⟨⟨rfl, rfl, rfl, rfl, rfl⟩, fun hne => absurd (by simpa using hx) hne⟩
  · rw [if_neg hx]
    exact ⟨⟨rfl, rfl, rfl, rfl, rfl⟩, fun _ => rfl⟩

theorem update_frames_other_fields_witness :
    (update_task_status ⟨[⟨1, "A", some "d", "Pending", some "2023-12-31", "t0"⟩,
          ⟨2, "B", none, "Pending", none, "t1"⟩], 3⟩ 1 ⟨"Done"⟩).1.nextId = 3 ∧
      List.Forall₂
        (fun old new => OnlyStatusDiffers old new ∧ (old.id ≠ 1 → new = old))
        [⟨1, "A", some "d", "Pending", some "2023-12-31", "t0"⟩,
         ⟨2, "B", none, "Pending", none, "t1"⟩]
        (update_task_status ⟨[⟨1, "A", some "d", "Pending", some "2023-12-31", "t0"⟩,
            ⟨2, "B", none, "Pending", none, "t1"⟩], 3⟩ 1 ⟨"Done"⟩).1.tasks :=
  update_frames_other_fields
    ⟨[⟨1, "A", some "d", "Pending", some "2023-12-31", "t0"⟩,
      ⟨2, "B", none, "Pending", none, "t1"⟩], 3⟩ 1 ⟨"Done"⟩
    ⟨1, "A", some "d", "Pending", some "2023-12-31", "t0"⟩ rfl

/-- C5: delete checks existence first: a missing id raises 404 "Task not
found"; an existing id yields the confirmation body, removes every row
carrying that id and keeps every other row. -/
theorem delete_checks_existence (st : Store) (task_id : Nat) :
    (fetch_one st task_id = none →
        delete_task st task_id = (st, .error ⟨404, "Task not found"⟩)) ∧
      ∀ r, fetch_one st task_id = some r →
        (delete_task st task_id).2 = .ok "Task deleted successfully" ∧
          (∀ x ∈ (delete_task st task_id).1.tasks, x.id ≠ task_id) ∧
          (∀ x ∈ st.tasks, x.id ≠ task_id → x ∈ (delete_task st task_id).1.tasks) ∧
          (delete_task st task_id).1.nextId = st.nextId := by
  refine ⟨delete_task_none st task_id, ?_⟩
  intro r hr
  rw [delete_task_found st task_id r hr]
  refine ⟨rfl, ?_, ?_, rfl⟩
  · intro x hx
    simp only [List.mem_filter] at hx
    simpa using hx.2
  · intro x hx hne
    simp only [List.mem_filter]
    exact ⟨hx, by simpa using hne⟩

theorem delete_checks_existence_witness :
    (delete_task ⟨[⟨1, "A", none, "Pending", none, "t0"⟩], 2⟩ 1).2 =
        .ok "Task deleted successfully" ∧
      delete_task ⟨[⟨1, "A", none, "Pending", none, "t0"⟩], 2⟩ 9999 =
        (⟨[⟨1, "A", none, "Pending", none, "t0"⟩], 2⟩,
         .error ⟨404, "Task not found"⟩) :=
  ⟨((delete_checks_existence ⟨[⟨1, "A", none, "Pending", none, "t0"⟩], 2⟩ 1).2
      ⟨1, "A", none, "Pending", none, "t0"⟩ rfl).1,
   (delete_checks_existence ⟨[⟨1, "A", none, "Pending", none, "t0"⟩], 2⟩ 9999).1
      rfl⟩

/-- C6: after a successful delete of an existing id, a get of the same id
raises 404 "Task not found". -/
theorem get_after_delete_404 (st : Store) (task_id : Nat) (r : Row)
    (h : fetch_one st task_id = some r) :
    get_task (delete_task st task_id).1 task_id =
      .error ⟨404, "Task not found"⟩ := by
  rw [delete_task_found st task_id r h]
  have hnone : fetch_one
      (⟨st.tasks.filter (fun x => !(x.id == task_id)), st.nextId⟩ : Store)
      task_id = none := by
    unfold fetch_one
    rw [List.find?_eq_none]
    intro x hx
    simp only [List.mem_filter] at hx
    simpa using hx.2
  unfold get_task
  rw [hnone]

theorem get_after_delete_404_witness :
    get_task (delete_task ⟨[⟨1, "A", none, "Pending", none, "t0"⟩], 2⟩ 1).1 1 =
      .error ⟨404, "Task not found"⟩ :=
  get_after_delete_404 ⟨[⟨1, "A", none, "Pending", none, "t0"⟩], 2⟩ 1
    ⟨1, "A", none, "Pending", none, "t0"⟩ rfl

/-- The ids handed out by successive creates are exactly the consecutive
AUTOINCREMENT values starting at the current counter. -/
theorem runCreateIds_eq_range (st : Store) (h : st.WF)
    (ops : List (TaskModel × String)) :
    runCreateIds st ops = List.range' st.nextId ops.length := by
  induction ops generalizing st with
  | nil => rfl
  | cons op rest ih =>
    obtain ⟨t, now⟩ := op
    show respId (create_task st t now).2 ::
        runCreateIds (create_task st t now).1 rest =
      List.range' st.nextId (rest.length + 1)
    rw [create_task_resp st h.1 t now, ih _ (create_task_WF st h t now),
      create_task_store]
    rfl

/-- C7: across any sequence of create calls from a well-formed store, the
returned ids are strictly increasing in call order, hence pairwise
distinct: no id is returned twice. -/
theorem create_ids_unique_monotone (st : Store) (h : st.WF)
    (ops : List (TaskModel × String)) :
    (runCreateIds st ops).Pairwise (· < ·) ∧ (runCreateIds st ops).Nodup := by
  rw [runCreateIds_eq_range st h ops]
  exact ⟨List.pairwise_lt_range' _ _, List.nodup_range' _ _⟩

theorem create_ids_unique_monotone_witness :
    (runCreateIds initStore
        [(⟨"A", none, none, "Pending"⟩, "t0"),
         (⟨"B", none, none, "Pending"⟩, "t1"),
         (⟨"C", none, none, "Pending"⟩, "t2")]).Pairwise (· < ·) ∧
      (runCreateIds initStore
        [(⟨"A", none, none, "Pending"⟩, "t0"),
         (⟨"B", none, none, "Pending"⟩, "t1"),
         (⟨"C", none, none, "Pending"⟩, "t2")]).Nodup :=
  create_ids_unique_monotone initStore
    ⟨by simp [initStore], by simp [initStore]⟩
    [(⟨"A", none, none, "Pending"⟩, "t0"),
     (⟨"B", none, none, "Pending"⟩, "t1"),
     (⟨"C", none, none, "Pending"⟩, "t2")]

/-- C8 as stated fails: the pydantic model only requires the title field to
be present, it never rejects the empty string, so a create request with an
empty title stores a task whose title is the empty string. -/
theorem create_empty_title_stored :
    ∃ r, r ∈ (create_task initStore ⟨"", none, none, "Pending"⟩ "t0").1.tasks ∧
      r.title = "" :=
  ⟨⟨1, "", none, "Pending", none, "t0"⟩, by decide, rfl⟩

/-- C8 amended: the title field is required in the payload, but it is not
checked for non-emptiness: the created task stores exactly the title the
payload carried, whatever it is. -/
theorem create_title_stored_as_given (st : Store) (h : st.WF)
    (task : TaskModel) (now : String) :
    ∃ resp, (create_task st task now).2 = some resp ∧
      resp.title = task.title :=
  ⟨⟨st.nextId, task.title, task.description, task.due_date, task.status⟩,
   create_task_resp st h.1 task now, rfl⟩

theorem create_title_stored_as_given_witness :
    ∃ resp, (create_task initStore ⟨"Test Task", none, none, "Pending"⟩ "t0").2 =
        some resp ∧ resp.title = "Test Task" :=
  create_title_stored_as_given initStore ⟨by simp [initStore], by simp [initStore]⟩
    ⟨"Test Task", none, none, "Pending"⟩ "t0"

theorem insertDesc_perm (r : Row) (l : List Row) :
    (insertDesc r l).Perm (r :: l) := by
  induction l with
  | nil => exact List.Perm.refl _
  | cons x xs ih =>
    unfold insertDesc
    by_cases hx : x.id ≤ r.id
    · rw [if_pos hx]
    · rw [if_neg hx]
      exact (ih.cons x).trans (List.Perm.swap r x xs)

theorem sortDesc_perm (l : List Row) : (sortDesc l).Perm l := by
  induction l with
  | nil => exact List.Perm.refl _
  | cons x xs ih =>
    exact (insertDesc_perm x (sortDesc xs)).trans (ih.cons x)

theorem insertDesc_sorted (r : Row) (l : List Row)
    (h : l.Pairwise (fun a b => b.id ≤ a.id)) :
    (insertDesc r l).Pairwise (fun a b => b.id ≤ a.id) := by
  induction l with
  | nil => simp [insertDesc]
  | cons x xs ih =>
    rw [List.pairwise_cons] at h
    obtain ⟨hx, hxs⟩ := h
    unfold insertDesc
    by_cases hcmp : x.id ≤ r.id
    · rw [if_pos hcmp]
      rw [List.pairwise_cons]
      refine ⟨?_, List.pairwise_cons.mpr ⟨hx, hxs⟩⟩
      intro b hb
      rcases List.mem_cons.mp hb with hb | hb
      · rw [hb]; exact hcmp
      · exact Nat.le_trans (hx b hb) hcmp
    · rw [if_neg hcmp]
      rw [List.pairwise_cons]
      refine ⟨?_, ih hxs⟩
      intro b hb
      have hb' := (insertDesc_perm r xs).mem_iff.mp hb
      rcases List.mem_cons.mp hb' with hbe | hbm
      · rw [hbe]; exact Nat.le_of_lt (Nat.lt_of_not_le hcmp)
      · exact hx b hbm

theorem sortDesc_sorted (l : List Row) :
    (sortDesc l).Pairwise (fun a b => b.id ≤ a.id) := by
  induction l with
  | nil => simp [sortDesc]
  | cons x xs ih => exact insertDesc_sorted x (sortDesc xs) ih

/-- Successive creates append rows whose ids are the consecutive
AUTOINCREMENT values, and push the counter forward accordingly. -/
theorem runCreatesStore_ids (st : Store) (ops : List (TaskModel × String)) :
    (runCreatesStore st ops).tasks.map Row.id =
        st.tasks.map Row.id ++ List.range' st.nextId ops.length ∧
      (runCreatesStore st ops).nextId = st.nextId + ops.length := by
  induction ops generalizing st with
  | nil => simp [runCreatesStore]
  | cons op rest ih =>
    obtain ⟨t, now⟩ := op
    show (runCreatesStore (create_task st t now).1 rest).tasks.map Row.id = _ ∧
      (runCreatesStore (create_task st t now).1 rest).nextId = _
    obtain ⟨h1, h2⟩ := ih (create_task st t now).1
    constructor
    · rw [h1, create_task_store]
      simp [List.append_assoc, List.range'_succ]
    · rw [h2, create_task_store]
      simp only [List.length_cons]
      omega

theorem runCreatesStore_WF (st : Store) (h : st.WF)
    (ops : List (TaskModel × String)) : (runCreatesStore st ops).WF := by
  induction ops generalizing st with
  | nil => exact h
  | cons op rest ih =>
    obtain ⟨t, now⟩ := op
    exact ih _ (create_task_WF st h t now)

/-- C9: the listing after any sequence of creates from a well-formed store
is sorted by id descending, is a permutation of the whole table (every row
appears), and every id returned by the creates appears exactly once. -/
theorem list_returns_all_sorted_desc (st : Store) (h : st.WF)
    (ops : List (TaskModel × String)) :
    ((get_tasks (runCreatesStore st ops)).map TaskResponse.id).Pairwise (· ≥ ·) ∧
      (get_tasks (runCreatesStore st ops)).Perm
        ((runCreatesStore st ops).tasks.map rowToResponse) ∧
      ∀ i ∈ runCreateIds st ops,
        ((get_tasks (runCreatesStore st ops)).map TaskResponse.id).count i = 1 := by
  set F := runCreatesStore st ops with hF
  have hids : (get_tasks F).map TaskResponse.id = (sortDesc F.tasks).map Row.id := by
    unfold get_tasks
    rw [List.map_map]
    rfl
  refine ⟨?_, ?_, ?_⟩
  · rw [hids, List.pairwise_map]
    exact sortDesc_sorted F.tasks
  · exact (sortDesc_perm F.tasks).map rowToResponse
  · intro i hi
    have hWF := runCreatesStore_WF st h ops
    have hperm : ((get_tasks F).map TaskResponse.id).Perm (F.tasks.map Row.id) := by
      rw [hids]
      exact (sortDesc_perm F.tasks).map Row.id
    rw [hperm.count_eq i]
    apply List.count_eq_one_of_mem hWF.2
    obtain ⟨h1, _⟩ := runCreatesStore_ids st ops
    rw [← hF] at h1
    rw [h1, List.mem_append]
    right
    rw [runCreateIds_eq_range st h ops] at hi
    exact hi

theorem list_returns_all_sorted_desc_witness :
    ((get_tasks (runCreatesStore initStore
          [(⟨"A", none, none, "Pending"⟩, "t0"),
           (⟨"B", none, none, "Pending"⟩, "t1")])).map TaskResponse.id).Pairwise
        (· ≥ ·) ∧
      (get_tasks (runCreatesStore initStore
          [(⟨"A", none, none, "Pending"⟩, "t0"),
           (⟨"B", none, none, "Pending"⟩, "t1")])).Perm
        ((runCreatesStore initStore
          [(⟨"A", none, none, "Pending"⟩, "t0"),
           (⟨"B", none, none, "Pending"⟩, "t1")]).tasks.map rowToResponse) ∧
      ∀ i ∈ runCreateIds initStore
          [(⟨"A", none, none, "Pending"⟩, "t0"),
           (⟨"B", none, none, "Pending"⟩, "t1")],
        ((get_tasks (runCreatesStore initStore
            [(⟨"A", none, none, "Pending"⟩, "t0"),
             (⟨"B", none, none, "Pending"⟩, "t1")])).map TaskResponse.id).count i
          = 1 :=
  list_returns_all_sorted_desc initStore
    ⟨by simp [initStore], by simp [initStore]⟩
    [(⟨"A", none, none, "Pending"⟩, "t0"),
     (⟨"B", none, none, "Pending"⟩, "t1")]

/-- Rewrite only the created_at column of a row, as a function of its id. -/
def stampRow (g : Nat → String) (r : Row) : Row :=
  ⟨r.id, r.title, r.description, r.status, r.due_date, g r.id⟩

theorem stampRow_id (g : Nat → String) (r : Row) : (stampRow g r).id = r.id := rfl

/-- The same table with every created_at column rewritten. -/
def stampStore (g : Nat → String) (st : Store) : Store :=
  ⟨st.tasks.map (stampRow g), st.nextId⟩

theorem rowToResponse_stamp (g : Nat → String) (r : Row) :
    rowToResponse (stampRow g r) = rowToResponse r := rfl

theorem find?_id_stamp (g : Nat → String) (l : List Row) (task_id : Nat) :
    (l.map (stampRow g)).find? (fun r => r.id == task_id) =
      (l.find? (fun r => r.id == task_id)).map (stampRow g) := by
  induction l with
  | nil => rfl
  | cons x xs ih =>
    by_cases hx : (x.id == task_id) = true
    · rw [List.map_cons,
        @List.find?_cons_of_pos Row (fun r => r.id == task_id) (stampRow g x)
          (xs.map (stampRow g)) (by simpa [stampRow_id] using hx),
        @List.find?_cons_of_pos Row (fun r => r.id == task_id) x xs hx]
      rfl
    · rw [List.map_cons,
        @List.find?_cons_of_neg Row (fun r => r.id == task_id) (stampRow g x)
          (xs.map (stampRow g)) (by simpa [stampRow_id] using hx),
        @List.find?_cons_of_neg Row (fun r => r.id == task_id) x xs hx]
      exact ih

theorem fetch_one_stamp (g : Nat → String) (st : Store) (task_id : Nat) :
    fetch_one (stampStore g st) task_id =
      (fetch_one st task_id).map (stampRow g) :=
  find?_id_stamp g st.tasks task_id

/-- An id-preserving renaming of rows commutes with the descending-id
insertion. -/
theorem insertDesc_map (f : Row → Row) (hf : ∀ x, (f x).id = x.id)
    (r : Row) (l : List Row) :
    insertDesc (f r) (l.map f) = (insertDesc r l).map f := by
  induction l with
  | nil => rfl
  | cons x xs ih =>
    rw [List.map_cons]
    unfold insertDesc
    by_cases hx : x.id ≤ r.id
    · rw [if_pos (by rw [hf, hf]; exact hx), if_pos hx, List.map_cons,
        List.map_cons]
    · rw [if_neg (by rw [hf, hf]; exact hx), if_neg hx, List.map_cons, ih]

theorem sortDesc_map (f : Row → Row) (hf : ∀ x, (f x).id = x.id)
    (l : List Row) :
    sortDesc (l.map f) = (sortDesc l).map f := by
  induction l with
  | nil => rfl
  | cons x xs ih =>
    rw [List.map_cons]
    show insertDesc (f x) (sortDesc (xs.map f)) = _
    rw [ih]
    exact insertDesc_map f hf x (sortDesc xs)

theorem get_tasks_stamp (g : Nat → String) (st : Store) :
    get_tasks (stampStore g st) = get_tasks st := by
  unfold get_tasks stampStore
  simp only
  rw [sortDesc_map (stampRow g) (stampRow_id g)]
  rw [List.map_map]
  exact List.map_congr_left (fun a _ => rfl)

theorem get_task_stamp (g : Nat → String) (st : Store) (task_id : Nat) :
    get_task (stampStore g st) task_id = get_task st task_id := by
  unfold get_task
  rw [fetch_one_stamp]
  cases hfo : fetch_one st task_id with
  | none => rfl
  | some r => rfl

/-- Stamping commutes with the status rewrite of the UPDATE statement. -/
theorem update_row_stamp_comm (g : Nat → String) (task_id : Nat) (s : String)
    (x : Row) :
    (if (stampRow g x).id == task_id then { stampRow g x with status := s }
      else stampRow g x) =
      stampRow g (if x.id == task_id then { x with status := s } else x) := by
  rw [stampRow_id]
  by_cases hx : (x.id == task_id) = true
  · rw [if_pos hx, if_pos hx]
    rfl
  · rw [if_neg hx, if_neg hx]

theorem update_task_status_stamp (g : Nat → String) (st : Store)
    (task_id : Nat) (u : TaskUpdate) :
    (update_task_status (stampStore g st) task_id u).2 =
      (update_task_status st task_id u).2 := by
  unfold update_task_status
  rw [fetch_one_stamp]
  cases hfo : fetch_one st task_id with
  | none => rfl
  | some r =>
    rw [Option.map_some']
    show Except.ok
        ((fetch_one
          ⟨(st.tasks.map (stampRow g)).map (fun x =>
              if x.id == task_id then { x with status := u.status } else x),
            st.nextId⟩ task_id).map rowToResponse) = Except.ok
        ((fetch_one
          ⟨st.tasks.map (fun x =>
              if x.id == task_id then { x with status := u.status } else x),
            st.nextId⟩ task_id).map rowToResponse)
    have hmaps :
        (st.tasks.map (stampRow g)).map (fun x =>
            if x.id == task_id then { x with status := u.status } else x) =
          (st.tasks.map (fun x =>
            if x.id == task_id then { x with status := u.status } else x)).map
            (stampRow g) := by
      rw [List.map_map, List.map_map]
      exact List.map_congr_left
        (fun a _ => update_row_stamp_comm g task_id u.status a)
    rw [hmaps]
    have hfetch := find?_id_stamp g
      (st.tasks.map (fun x =>
        if x.id == task_id then { x with status := u.status } else x)) task_id
    show Except.ok (Option.map rowToResponse _) = _
    unfold fetch_one
    rw [hfetch]
    cases (st.tasks.map (fun x =>
        if x.id == task_id then { x with status := u.status } else x)).find?
        (fun r => r.id == task_id) with
    | none => rfl
    | some q => rfl

/-- The create response never depends on the CURRENT_TIMESTAMP value that
fills the created_at column. -/
theorem create_task_resp_created_at (st : Store) (task : TaskModel)
    (now now' : String) :
    (create_task st task now).2 = (create_task st task now').2 := by
  show (fetch_one (create_task st task now).1 st.nextId).map rowToResponse =
    (fetch_one (create_task st task now').1 st.nextId).map rowToResponse
  unfold fetch_one
  rw [create_task_store, create_task_store]
  simp only [List.find?_append]
  cases st.tasks.find? (fun r => r.id == st.nextId) with
  | some r => rfl
  | none =>
    show (Option.none.or _).map rowToResponse = (Option.none.or _).map rowToResponse
    simp only [Option.none_or]
    rw [@List.find?_cons_of_pos Row (fun r => r.id == st.nextId) _ [] (by simp),
      @List.find?_cons_of_pos Row (fun r => r.id == st.nextId) _ [] (by simp)]
    rfl

/-- C10: every representation a handler returns carries exactly the five
response fields, so the stored created_at timestamp is never exposed: the
create response is independent of the timestamp value, and rewriting every
created_at column changes no response of list, get-one or update. -/
theorem created_at_never_exposed (st : Store) (g : Nat → String)
    (task : TaskModel) (now now' : String) (task_id : Nat) (u : TaskUpdate) :
    (create_task st task now).2 = (create_task st task now').2 ∧
      get_tasks (stampStore g st) = get_tasks st ∧
      get_task (stampStore g st) task_id = get_task st task_id ∧
      (update_task_status (stampStore g st) task_id u).2 =
        (update_task_status st task_id u).2 :=
  ⟨create_task_resp_created_at st task now now',
   get_tasks_stamp g st,
   get_task_stamp g st task_id,
   update_task_status_stamp g st task_id u⟩
